import Mathlib

/-!
Shallow embedding of the qmotion-templates screen-space interaction core:
the mouse waypoint controller (`useMouseController`), the simulated hover
detector (`useSimulatedHover`), and the parallax camera container
(`ScreenSpace3D`).  Numbers are modelled as rationals; the transcendental
functions the source takes from `Math` (`sin`, `cos`, `sqrt`) are passed in
as function parameters, so every definition stays executable.
-/

/-- A 2-D point or vector with rational coordinates. -/
@[ext]
structure Vec2 where
  x : ℚ
  y : ℚ
deriving DecidableEq, Repr

/-- A measured element rectangle as returned by `getBoundingClientRect`:
`left`/`top` corner plus `width`/`height`; `right`/`bottom` are derived. -/
structure Rect where
  left : ℚ
  top : ℚ
  width : ℚ
  height : ℚ
deriving DecidableEq, Repr

/-- `rect.right` of a DOM rectangle. -/
def Rect.right (r : Rect) : ℚ := r.left + r.width

/-- `rect.bottom` of a DOM rectangle. -/
def Rect.bottom (r : Rect) : ℚ := r.top + r.height

/-- A waypoint target: either a `RefObject<HTMLElement>` (whose `current` is
the geometry snapshot — `none` when unmeasured) or absolute coordinates. -/
inductive MouseTarget where
  | ref (current : Option Rect)
  | abs (x y : ℚ)

/-- `MouseWaypoint` from `useMouseController`: frame, target, optional
offset, optional click trigger, optional custom easing. -/
structure MouseWaypoint where
  frame : ℚ
  target : MouseTarget
  offset : Option Vec2 := none
  onClick : Bool := false
  easing : Option (ℚ → ℚ) := none

/-- Wobble settings `{amplitude, speed}`. -/
structure Wobble where
  amplitude : ℚ
  speed : ℚ
deriving DecidableEq, Repr

/-- Default wobble `{ amplitude: 2, speed: 0.1 }`. -/
def defaultWobble : Wobble := ⟨2, 1/10⟩

/-- `MouseControllerConfig`: waypoints plus optional wobble and
`clickDuration` (defaulted to 8 at destructuring time). -/
structure MouseControllerConfig where
  waypoints : List MouseWaypoint
  wobble : Option Wobble := none
  clickDuration : Option ℚ := none

/-- The per-frame result `MousePosition`. -/
@[ext]
structure MousePosition where
  x : ℚ
  y : ℚ
  isClicking : Bool
deriving DecidableEq, Repr

/-- Modelled from the spec: the default easing `Easing.easeInOutQuad` of
`@qmotion/core` (not part of this repository).  The spec calls it the
"ease-in-out-quad" monotonic `[0,1] → [0,1]` remapping whose output exactly
equals the endpoints at the endpoints; this is the standard quadratic
ease-in-out curve. -/
def easeInOutQuad (t : ℚ) : ℚ :=
  if t < 1/2 then 2 * t * t else 1 - (-2 * t + 2) ^ 2 / 2

/-- Modelled from the spec: `interpolate(frame, [a,b], [0,1], {easing,
extrapolate clamp})` of `@qmotion/core` (not part of this repository).
The spec: apply the easing to the normalized progress
`(frame - start.frame) / (end.frame - start.frame)`, clamped into `[0,1]`
on both sides. -/
def interpolateClamped (frame a b : ℚ) (easing : ℚ → ℚ) : ℚ :=
  easing (min (max ((frame - a) / (b - a)) 0) 1)

/-- The waypoint's effective x offset, `wp.offset?.x || 0`. -/
def MouseWaypoint.offX (wp : MouseWaypoint) : ℚ := (wp.offset.map Vec2.x).getD 0

/-- The waypoint's effective y offset, `wp.offset?.y || 0`. -/
def MouseWaypoint.offY (wp : MouseWaypoint) : ℚ := (wp.offset.map Vec2.y).getD 0

/-- `resolveTarget` from `useMouseController`: absolute coordinates plus
offset; for a ref, the measured rectangle's center plus offset, or the
`{960, 540}` viewport-center fallback when unmeasured. -/
def resolveTarget (wp : MouseWaypoint) : Vec2 :=
  match wp.target with
  | .ref (some rect) =>
      ⟨rect.left + rect.width / 2 + wp.offX, rect.top + rect.height / 2 + wp.offY⟩
  | .ref none => ⟨960, 540⟩
  | .abs x y => ⟨x + wp.offX, y + wp.offY⟩

/-- The segment-search loop of `useMouseController`: iterate over adjacent
waypoint pairs; on the first pair whose frame interval contains `frame`,
return it (the `break`); if `frame` lies past the second element of the
final pair, hold at the last waypoint; otherwise the initial
`(first, first)` assignment is left untouched. -/
def segLoop (frame : ℚ) (first : MouseWaypoint) :
    List MouseWaypoint → MouseWaypoint × MouseWaypoint
  | a :: b :: rest =>
      if frame ≥ a.frame ∧ frame ≤ b.frame then (a, b)
      else if frame > b.frame ∧ rest.isEmpty then (b, b)
      else segLoop frame first (b :: rest)
  | _ => (first, first)

/-- The interpolated, pre-wobble position of `useMouseController`: find the
segment, resolve both endpoint targets, force `t = 1` on a degenerate
segment (equal frames), otherwise ease the clamped progress, then lerp. -/
def preJitterPos (frame : ℚ) (config : MouseControllerConfig) : Vec2 :=
  match config.waypoints with
  | [] => ⟨0, 0⟩
  | w :: rest =>
      let seg := segLoop frame w (w :: rest)
      let startWp := seg.1
      let endWp := seg.2
      let startPos := resolveTarget startWp
      let endPos := resolveTarget endWp
      let easing := endWp.easing.getD easeInOutQuad
      let t := if startWp.frame = endWp.frame then 1
               else interpolateClamped frame startWp.frame endWp.frame easing
      ⟨startPos.x + (endPos.x - startPos.x) * t,
       startPos.y + (endPos.y - startPos.y) * t⟩

/-- The organic wobble on x: `Math.sin(frame * wobble.speed) * wobble.amplitude`. -/
def wobbleX (sin : ℚ → ℚ) (frame : ℚ) (w : Wobble) : ℚ :=
  sin (frame * w.speed) * w.amplitude

/-- The organic wobble on y: `Math.cos(frame * wobble.speed * 0.8) * wobble.amplitude`. -/
def wobbleY (cos : ℚ → ℚ) (frame : ℚ) (w : Wobble) : ℚ :=
  cos (frame * w.speed * (8/10)) * w.amplitude

/-- The click scan of `useMouseController`: some waypoint has `onClick` and
`frame >= wp.frame && frame < wp.frame + clickDuration` (the early `break`
is observationally the same as `List.any`). -/
def isClickingAt (frame clickDuration : ℚ) (wps : List MouseWaypoint) : Bool :=
  wps.any fun wp =>
    wp.onClick && decide (frame ≥ wp.frame) && decide (frame < wp.frame + clickDuration)

/-- `useMouseController`: empty waypoint list short-circuits to
`{x: 0, y: 0, isClicking: false}`; otherwise the eased segment position
plus wobble, together with the click state. -/
def useMouseController (sin cos : ℚ → ℚ) (frame : ℚ)
    (config : MouseControllerConfig) : MousePosition :=
  let wobble := config.wobble.getD defaultWobble
  let clickDuration := config.clickDuration.getD 8
  if config.waypoints.isEmpty then ⟨0, 0, false⟩
  else
    let p := preJitterPos frame config
    ⟨p.x + wobbleX sin frame wobble, p.y + wobbleY cos frame wobble,
     isClickingAt frame clickDuration config.waypoints⟩

/-- `SimulatedHoverResult`: hover flag, distance to the element center
(`⊤` models the `Infinity` of the unmeasured branch), and the
`hoverStartFrame` field. -/
structure SimulatedHoverResult where
  isHovered : Bool
  distance : WithTop ℚ
  hoverStartFrame : Option ℚ
deriving DecidableEq, Repr

/-- `useSimulatedHover`: when the ref is unmeasured, return
`{isHovered: false, distance: Infinity, hoverStartFrame: null}`; otherwise
test the padded bounding box with inclusive bounds, compute the Euclidean
distance to the center, and set `hoverStartFrame` to the current frame iff
hovered (the source computes it per frame, without cross-frame state). -/
def useSimulatedHover (sqrt : ℚ → ℚ) (frame : ℚ) (mousePos : MousePosition)
    (refCurrent : Option Rect) (hitboxPadding : ℚ) : SimulatedHoverResult :=
  match refCurrent with
  | none => ⟨false, ⊤, none⟩
  | some rect =>
      let centerX := rect.left + rect.width / 2
      let centerY := rect.top + rect.height / 2
      let dx := mousePos.x - centerX
      let dy := mousePos.y - centerY
      let distance := sqrt (dx * dx + dy * dy)
      let isHovered :=
        decide (mousePos.x ≥ rect.left - hitboxPadding) &&
        decide (mousePos.x ≤ rect.right + hitboxPadding) &&
        decide (mousePos.y ≥ rect.top - hitboxPadding) &&
        decide (mousePos.y ≤ rect.bottom + hitboxPadding)
      ⟨isHovered, (distance : ℚ), if isHovered then some frame else none⟩

/-- The camera transform computed by the `ScreenSpace3D` component:
`offsetX`/`offsetY` translation and `rotateX`/`rotateY` tilt. -/
@[ext]
structure CameraTransform where
  offsetX : ℚ
  offsetY : ℚ
  rotateX : ℚ
  rotateY : ℚ
deriving DecidableEq, Repr

/-- Viewport dimensions. -/
structure Viewport where
  width : ℚ
  height : ℚ
deriving DecidableEq, Repr

/-- The transform part of `ScreenSpace3D`: pick the active target (explicit
override, else the mouse when following, else the viewport center); when
`follow` is set, normalize to `[-1, 1]`, translate opposite the target and
tilt toward it; otherwise all four outputs stay zero. -/
def ScreenSpace3D (parallaxStrength rotateStrength : ℚ) (follow : Bool)
    (target : Option Vec2) (mousePos : Vec2) (viewport : Viewport) : CameraTransform :=
  let activeTarget := target.getD
    (if follow then mousePos else ⟨viewport.width / 2, viewport.height / 2⟩)
  if follow then
    let normalizedX := activeTarget.x / viewport.width * 2 - 1
    let normalizedY := activeTarget.y / viewport.height * 2 - 1
    ⟨-normalizedX * viewport.width * parallaxStrength,
     -normalizedY * viewport.height * parallaxStrength,
     -normalizedY * rotateStrength,
     normalizedX * rotateStrength⟩
  else ⟨0, 0, 0, 0⟩

/-- A configuration with a single click-triggering waypoint at frame 20 and
the default `clickDuration`. -/
def clickCfg : MouseControllerConfig :=
  ⟨[⟨20, .abs 0 0, none, true, none⟩], none, none⟩

/-- A configuration carrying a malformed (negative) `clickDuration`. -/
def negDurConfig : MouseControllerConfig :=
  ⟨[⟨20, .abs 300 400, none, true, none⟩], some ⟨0, 0⟩, some (-1)⟩

/-- A minimal configuration with one waypoint at frame 10. -/
def oneWpConfig : MouseControllerConfig :=
  ⟨[⟨10, .abs 100 200, none, false, none⟩], none, none⟩

/-- The frame-ascending list 10, 15, 15 whose duplicate pair is preceded by
an earlier waypoint. -/
def dupTailWps : List MouseWaypoint :=
  [⟨10, .abs 0 0, none, false, none⟩, ⟨15, .abs 100 0, none, false, none⟩,
   ⟨15, .abs 200 0, none, false, none⟩]

/-- Claim C1 (code bug): the hover hook derives `hoverStartFrame` from the
current frame alone, with no cross-frame state; during a hover run that
covers frames 12 and 13 it reports the current frame 13 at frame 13 instead
of the onset frame 12 demanded by the spec (and by the field's own
documentation "Frame when hover started"). -/
theorem hoverStartFrame_not_persisted :
    (useSimulatedHover (fun q => q) 12 ⟨50, 50, false⟩
        (some ⟨0, 0, 100, 100⟩) 0).hoverStartFrame = some 12 ∧
    (useSimulatedHover (fun q => q) 13 ⟨50, 50, false⟩
        (some ⟨0, 0, 100, 100⟩) 0).hoverStartFrame = some 13 ∧
    some (13 : ℚ) ≠ some 12 := by
  refine ⟨?_, ?_, by norm_num⟩ <;>
    norm_num [useSimulatedHover, Rect.right, Rect.bottom]

/-- Claim C2 (amended): evaluating the mouse controller with an empty
waypoint list never fails and returns the default `{x: 0, y: 0,
isClicking: false}` at every frame. -/
theorem emptyTimeline_default (s c : ℚ → ℚ) (frame : ℚ)
    (wob : Option Wobble) (dur : Option ℚ) :
    useMouseController s c frame ⟨[], wob, dur⟩ = ⟨0, 0, false⟩ := by
  simp [useMouseController]

/-- Claim C2, counterexample: with an empty waypoint list the controller
returns the origin `{x: 0, y: 0}`, not the viewport-center default the spec
documents (960 for the x coordinate). -/
theorem emptyTimeline_not_viewport_center :
    useMouseController (fun _ => 0) (fun _ => 0) 0 ⟨[], none, none⟩ = ⟨0, 0, false⟩ ∧
    (useMouseController (fun _ => 0) (fun _ => 0) 0 ⟨[], none, none⟩).x ≠ 960 := by
  constructor <;> norm_num [useMouseController]

/-- An effectively nonpositive `clickDuration` empties every click window. -/
theorem isClickingAt_nonpos (frame d : ℚ) (wps : List MouseWaypoint)
    (hd : d ≤ 0) : isClickingAt frame d wps = false := by
  simp only [isClickingAt, List.any_eq_false, Bool.and_eq_true, decide_eq_true_eq,
    not_and, ge_iff_le]
  intro wp _ hok hlt
  have hle := hok.2
  linarith

/-- Claim C3 (amended): the code validates nothing at construction: a
configuration whose effective `clickDuration` is negative is accepted, and
per-frame evaluation — which itself never rejects configuration — simply
produces `isClicking = false` (every click window is empty). -/
theorem clickDuration_negative_noClick (s c : ℚ → ℚ) (frame : ℚ)
    (config : MouseControllerConfig) (h : config.clickDuration.getD 8 < 0) :
    (useMouseController s c frame config).isClicking = false := by
  by_cases he : config.waypoints.isEmpty
  · simp [useMouseController, he]
  · simp [useMouseController, he, isClickingAt_nonpos frame _ config.waypoints h.le]

/-- Witness for claim C3's amended theorem at the concrete malformed
configuration `negDurConfig`. -/
theorem clickDuration_negative_noClick_witness :
    negDurConfig.clickDuration.getD 8 < 0 ∧
    (useMouseController (fun _ => 0) (fun _ => 0) 20 negDurConfig).isClicking = false :=
  ⟨by norm_num [negDurConfig],
   clickDuration_negative_noClick _ _ 20 negDurConfig (by norm_num [negDurConfig])⟩

/-- Claim C3, counterexample: the malformed configuration (clickDuration
`-1`) is never rejected anywhere — there is no construction-time
validation in the code, and per-frame evaluation of the malformed
configuration proceeds normally and yields an ordinary result. -/
theorem negative_clickDuration_not_rejected :
    negDurConfig.clickDuration = some (-1) ∧
    useMouseController (fun _ => 0) (fun _ => 0) 20 negDurConfig = ⟨300, 400, false⟩ := by
  refine ⟨rfl, ?_⟩
  norm_num [useMouseController, negDurConfig, preJitterPos, segLoop, resolveTarget,
    isClickingAt, wobbleX, wobbleY, MouseWaypoint.offX, MouseWaypoint.offY]

/-- Claim C4: `isClicking` is true iff some waypoint triggers a click and
the frame lies in the half-open window `[wp.frame, wp.frame +
clickDuration)`, where `clickDuration` is the single configuration value
defaulting to 8 and overlapping windows compose by the logical OR of
`List.any`; concretely, a trigger at frame 20 with the default duration is
active on frames 20 and 27 and inactive at 19 and 28. -/
theorem click_window :
    (∀ (s c : ℚ → ℚ) (frame : ℚ) (config : MouseControllerConfig),
        ((useMouseController s c frame config).isClicking = true ↔
          ∃ wp ∈ config.waypoints, wp.onClick = true ∧ wp.frame ≤ frame ∧
            frame < wp.frame + config.clickDuration.getD 8)) ∧
    (useMouseController (fun _ => 0) (fun _ => 0) 20 clickCfg).isClicking = true ∧
    (useMouseController (fun _ => 0) (fun _ => 0) 27 clickCfg).isClicking = true ∧
    (useMouseController (fun _ => 0) (fun _ => 0) 19 clickCfg).isClicking = false ∧
    (useMouseController (fun _ => 0) (fun _ => 0) 28 clickCfg).isClicking = false := by
  refine ⟨fun s c frame config => ?_, ?_, ?_, ?_, ?_⟩
  · by_cases he : config.waypoints.isEmpty
    · rw [List.isEmpty_iff] at he
      simp [useMouseController, he]
    · simp [useMouseController, he, isClickingAt, List.any_eq_true, ge_iff_le, and_assoc]
  all_goals norm_num [useMouseController, clickCfg, isClickingAt]

/-- Claim C7: for a measured rectangle, `isHovered` is true iff the mouse
position lies within the rectangle expanded by `hitboxPadding` on all four
sides, with inclusive bounds; concretely, the point `(105, 50)` outside the
`[0,100] × [0,100]` rectangle by 5 pixels is hovered with padding 10 but
not with padding 0. -/
theorem hitbox_membership :
    (∀ (sq : ℚ → ℚ) (frame : ℚ) (pos : MousePosition) (r : Rect) (pad : ℚ),
        ((useSimulatedHover sq frame pos (some r) pad).isHovered = true ↔
          (r.left - pad ≤ pos.x ∧ pos.x ≤ r.right + pad ∧
           r.top - pad ≤ pos.y ∧ pos.y ≤ r.bottom + pad))) ∧
    (useSimulatedHover (fun q => q) 0 ⟨105, 50, false⟩
        (some ⟨0, 0, 100, 100⟩) 10).isHovered = true ∧
    (useSimulatedHover (fun q => q) 0 ⟨105, 50, false⟩
        (some ⟨0, 0, 100, 100⟩) 0).isHovered = false := by
  refine ⟨fun sq frame pos r pad => ?_, ?_, ?_⟩
  · simp [useSimulatedHover, ge_iff_le, and_assoc]
  all_goals norm_num [useSimulatedHover, Rect.right, Rect.bottom]

/-- Claim C8: an `ElementRef` waypoint whose geometry is unmeasured resolves
to the documented viewport-center fallback `{960, 540}`; a measured one
resolves to the rectangle's center plus the offset; and hover detection
against an unmeasured element yields `isHovered = false`,
`distance = +infinity`, `hoverStartFrame = null`. -/
theorem unmeasured_fallback :
    (∀ (off : Option Vec2) (oc : Bool) (e : Option (ℚ → ℚ)) (f : ℚ),
        resolveTarget ⟨f, .ref none, off, oc, e⟩ = ⟨960, 540⟩) ∧
    (∀ (r : Rect) (f ox oy : ℚ) (oc : Bool) (e : Option (ℚ → ℚ)),
        resolveTarget ⟨f, .ref (some r), some ⟨ox, oy⟩, oc, e⟩ =
          ⟨r.left + r.width / 2 + ox, r.top + r.height / 2 + oy⟩) ∧
    (∀ (sq : ℚ → ℚ) (frame : ℚ) (pos : MousePosition) (pad : ℚ),
        useSimulatedHover sq frame pos none pad = ⟨false, ⊤, none⟩) := by
  refine ⟨fun off oc e f => rfl, fun r f ox oy oc e => ?_, fun sq frame pos pad => rfl⟩
  simp [resolveTarget, MouseWaypoint.offX, MouseWaypoint.offY]

/-- The segment loop leaves the initial `(first, first)` assignment intact
when the frame lies strictly before every waypoint's frame. -/
theorem segLoop_all_gt (frame : ℚ) (first : MouseWaypoint) :
    ∀ (a : MouseWaypoint) (l : List MouseWaypoint),
      (∀ w ∈ a :: l, frame < w.frame) →
      segLoop frame first (a :: l) = (first, first) := by
  intro a l
  induction l generalizing a with
  | nil => intro _; rfl
  | cons b r ih =>
      intro h
      have h1 : ¬(frame ≥ a.frame ∧ frame ≤ b.frame) := by
        rintro ⟨hge, _⟩
        exact absurd hge (not_le.mpr (h a (by simp)))
      have h2 : ¬(frame > b.frame ∧ r.isEmpty = true) := by
        rintro ⟨hgt, _⟩
        exact absurd hgt (not_lt.mpr (h b (by simp)).le)
      rw [segLoop, if_neg h1, if_neg h2]
      exact ih b (fun w hw => h w (List.mem_cons_of_mem a hw))

/-- The segment loop holds at the last waypoint when the frame lies strictly
past every waypoint's frame and the list has at least two elements. -/
theorem segLoop_all_lt (frame : ℚ) (first : MouseWaypoint) :
    ∀ (a b : MouseWaypoint) (l : List MouseWaypoint),
      (∀ w ∈ a :: b :: l, w.frame < frame) →
      segLoop frame first (a :: b :: l) =
        ((b :: l).getLast (List.cons_ne_nil b l),
         (b :: l).getLast (List.cons_ne_nil b l)) := by
  intro a b l
  induction l generalizing a b with
  | nil =>
      intro h
      have h1 : ¬(frame ≥ a.frame ∧ frame ≤ b.frame) := by
        rintro ⟨_, hle⟩
        exact absurd hle (not_le.mpr (h b (by simp)))
      have h2 : frame > b.frame ∧ List.isEmpty ([] : List MouseWaypoint) = true :=
        ⟨h b (by simp), rfl⟩
      rw [segLoop, if_neg h1, if_pos h2]
      simp
  | cons d r ih =>
      intro h
      have h1 : ¬(frame ≥ a.frame ∧ frame ≤ b.frame) := by
        rintro ⟨_, hle⟩
        exact absurd hle (not_le.mpr (h b (by simp)))
      have h2 : ¬(frame > b.frame ∧ (d :: r).isEmpty = true) := by
        rintro ⟨_, hemp⟩
        simp at hemp
      rw [segLoop, if_neg h1, if_neg h2,
        ih b d (fun w hw => h w (List.mem_cons_of_mem a hw))]
      rw [List.getLast_cons (List.cons_ne_nil d r)]

/-- In a frame-ascending chain the head waypoint's frame is minimal. -/
theorem chain_head_le (w : MouseWaypoint) (rest : List MouseWaypoint)
    (h : List.Chain' (fun p q => p.frame ≤ q.frame) (w :: rest)) :
    ∀ u ∈ w :: rest, w.frame ≤ u.frame := by
  induction rest generalizing w with
  | nil => intro u hu; rw [List.mem_singleton] at hu; exact hu ▸ le_refl _
  | cons b r ih =>
      intro u hu
      rw [List.chain'_cons] at h
      rcases List.mem_cons.mp hu with h0 | h1
      · exact h0 ▸ le_refl _
      · exact le_trans h.1 (ih b h.2 u h1)

/-- In a frame-ascending chain the last waypoint's frame is maximal. -/
theorem chain_le_last (w : MouseWaypoint) (rest : List MouseWaypoint)
    (h : List.Chain' (fun p q => p.frame ≤ q.frame) (w :: rest)) :
    ∀ u ∈ w :: rest,
      u.frame ≤ ((w :: rest).getLast (List.cons_ne_nil w rest)).frame := by
  induction rest generalizing w with
  | nil => intro u hu; rw [List.mem_singleton] at hu; simp [hu]
  | cons b r ih =>
      intro u hu
      rw [List.chain'_cons] at h
      rw [List.getLast_cons (List.cons_ne_nil b r)]
      rcases List.mem_cons.mp hu with h0 | h1
      · exact h0 ▸ le_trans h.1 (ih b h.2 b (by simp))
      · exact ih b h.2 u h1

/-- When the segment search degenerates to a single waypoint `u`, the
pre-wobble position is exactly `u`'s resolved target (the `t = 1` guard
fires and the lerp collapses). -/
theorem preJitterPos_of_seg_eq (frame : ℚ) (w : MouseWaypoint)
    (rest : List MouseWaypoint) (wob : Option Wobble) (dur : Option ℚ)
    (u : MouseWaypoint) (hseg : segLoop frame w (w :: rest) = (u, u)) :
    preJitterPos frame ⟨w :: rest, wob, dur⟩ = resolveTarget u := by
  simp only [preJitterPos, hseg, if_true]
  ext <;> ring

/-- On a non-empty waypoint list, `useMouseController` is the pre-wobble
position plus the wobble, alongside the click scan. -/
theorem useMouseController_cons (s c : ℚ → ℚ) (frame : ℚ) (w : MouseWaypoint)
    (rest : List MouseWaypoint) (wob : Option Wobble) (dur : Option ℚ) :
    useMouseController s c frame ⟨w :: rest, wob, dur⟩ =
      ⟨(preJitterPos frame ⟨w :: rest, wob, dur⟩).x + wobbleX s frame (wob.getD defaultWobble),
       (preJitterPos frame ⟨w :: rest, wob, dur⟩).y + wobbleY c frame (wob.getD defaultWobble),
       isClickingAt frame (dur.getD 8) (w :: rest)⟩ := by
  simp [useMouseController]

/-- Claim C5 (amended): when the two duplicate waypoints open the list, the
controller never fails at the shared frame — the `t = 1` guard avoids the
division by zero — and the pre-jitter position at that frame is the second
duplicate's resolved target. -/
theorem degenerate_head_pair (w0 w1 : MouseWaypoint) (rest : List MouseWaypoint)
    (wob : Option Wobble) (dur : Option ℚ) (hf : w0.frame = w1.frame) :
    preJitterPos w0.frame ⟨w0 :: w1 :: rest, wob, dur⟩ = resolveTarget w1 := by
  have hseg : segLoop w0.frame w0 (w0 :: w1 :: rest) = (w0, w1) := by
    rw [segLoop, if_pos ⟨le_refl _, hf.le⟩]
  simp only [preJitterPos, hseg]
  rw [if_pos hf]
  ext <;> ring

/-- Witness for claim C5's amended theorem at a concrete duplicate pair
sharing frame 15. -/
theorem degenerate_head_pair_witness :
    (15 : ℚ) = 15 ∧
    preJitterPos 15 ⟨[⟨15, .abs 0 0, none, false, none⟩,
        ⟨15, .abs 100 0, none, false, none⟩], none, none⟩ =
      resolveTarget ⟨15, .abs 100 0, none, false, none⟩ :=
  ⟨rfl, degenerate_head_pair ⟨15, .abs 0 0, none, false, none⟩
      ⟨15, .abs 100 0, none, false, none⟩ [] none none rfl⟩

/-- Claim C5, counterexample: in the frame-ascending list with waypoints at
frames 10, 15 and 15, the consecutive duplicates share frame 15, yet
evaluation at frame 15 resolves to the first duplicate's target `(100, 0)`
— the segment from frame 10 to the first duplicate is selected and its
eased clamped progress is 1 — not to the second duplicate's `(200, 0)`. -/
theorem degenerate_pair_counterexample :
    List.Chain' (fun p q => p.frame ≤ q.frame) dupTailWps ∧
    preJitterPos 15 ⟨dupTailWps, none, none⟩ = ⟨100, 0⟩ ∧
    resolveTarget ⟨15, .abs 200 0, none, false, none⟩ = ⟨200, 0⟩ ∧
    (⟨100, 0⟩ : Vec2) ≠ ⟨200, 0⟩ := by
  refine ⟨?_, ?_, ?_, ?_⟩
  · norm_num [dupTailWps, List.chain'_cons, List.chain'_singleton]
  · norm_num [dupTailWps, preJitterPos, segLoop, resolveTarget, interpolateClamped,
      easeInOutQuad, MouseWaypoint.offX, MouseWaypoint.offY]
  · norm_num [resolveTarget, MouseWaypoint.offX, MouseWaypoint.offY]
  · intro h
    have h1 : (100 : ℚ) = 200 := congrArg Vec2.x h
    exact absurd h1 (by norm_num)

/-- Claim C6: boundary hold: on a non-empty frame-ascending waypoint list,
strictly before the first waypoint's frame the returned position is the
first waypoint's resolved target plus the wobble jitter, and strictly
after the last waypoint's frame it is the last waypoint's resolved target
plus the wobble jitter. -/
theorem boundary_hold (s c : ℚ → ℚ) (frame : ℚ) (w : MouseWaypoint)
    (rest : List MouseWaypoint) (wob : Option Wobble) (dur : Option ℚ)
    (hasc : List.Chain' (fun p q => p.frame ≤ q.frame) (w :: rest)) :
    (frame < w.frame →
      (useMouseController s c frame ⟨w :: rest, wob, dur⟩).x
          = (resolveTarget w).x + wobbleX s frame (wob.getD defaultWobble) ∧
      (useMouseController s c frame ⟨w :: rest, wob, dur⟩).y
          = (resolveTarget w).y + wobbleY c frame (wob.getD defaultWobble)) ∧
    (((w :: rest).getLast (List.cons_ne_nil w rest)).frame < frame →
      (useMouseController s c frame ⟨w :: rest, wob, dur⟩).x
          = (resolveTarget ((w :: rest).getLast (List.cons_ne_nil w rest))).x
              + wobbleX s frame (wob.getD defaultWobble) ∧
      (useMouseController s c frame ⟨w :: rest, wob, dur⟩).y
          = (resolveTarget ((w :: rest).getLast (List.cons_ne_nil w rest))).y
              + wobbleY c frame (wob.getD defaultWobble)) := by
  constructor
  · intro hlt
    have hall : ∀ u ∈ w :: rest, frame < u.frame :=
      fun u hu => lt_of_lt_of_le hlt (chain_head_le w rest hasc u hu)
    have hseg := segLoop_all_gt frame w w rest hall
    rw [useMouseController_cons, preJitterPos_of_seg_eq frame w rest wob dur w hseg]
    exact ⟨rfl, rfl⟩
  · intro hgt
    have hall : ∀ u ∈ w :: rest, u.frame < frame :=
      fun u hu => lt_of_le_of_lt (chain_le_last w rest hasc u hu) hgt
    cases rest with
    | nil =>
        rw [useMouseController_cons,
          preJitterPos_of_seg_eq frame w [] wob dur w rfl]
        exact ⟨rfl, rfl⟩
    | cons b r =>
        have hseg := segLoop_all_lt frame w w b r hall
        rw [useMouseController_cons,
          preJitterPos_of_seg_eq frame w (b :: r) wob dur _ hseg,
          List.getLast_cons (List.cons_ne_nil b r)]
        exact ⟨rfl, rfl⟩

/-- Witness for claim C6 at a single-waypoint list and a frame before it. -/
theorem boundary_hold_witness :
    (5 : ℚ) < 10 ∧
    (useMouseController (fun _ => 0) (fun _ => 0) 5
        ⟨[⟨10, .abs 100 200, none, false, none⟩], none, none⟩).x
      = (resolveTarget ⟨10, .abs 100 200, none, false, none⟩).x
          + wobbleX (fun _ => 0) 5 defaultWobble :=
  ⟨by norm_num,
   ((boundary_hold (fun _ => 0) (fun _ => 0) 5 ⟨10, .abs 100 200, none, false, none⟩
      [] none none (by simp)).1 (by norm_num)).1⟩

/-- With follow enabled and an explicit target override, the transform is
the normalization formula applied to the override. -/
theorem screenSpace3D_follow_target (ps rs : ℚ) (t mp : Vec2) (vp : Viewport) :
    ScreenSpace3D ps rs true (some t) mp vp =
      ⟨-(t.x / vp.width * 2 - 1) * vp.width * ps,
       -(t.y / vp.height * 2 - 1) * vp.height * ps,
       -(t.y / vp.height * 2 - 1) * rs,
       (t.x / vp.width * 2 - 1) * rs⟩ := rfl

/-- Claim C9: the parallax transform: with follow enabled, translation is
the normalized target times dimension times `-parallaxStrength` and the
rotation is the normalized target times `±rotateStrength`; with follow
disabled, or the target override at the viewport center, all four outputs
are zero; and a target at `(width, height/2)` with positive strengths gives
a negative `offsetX` (translateX) and a positive `rotateY`. -/
theorem parallax_transform :
    (∀ (ps rs : ℚ) (t mp : Vec2) (vp : Viewport),
        ScreenSpace3D ps rs true (some t) mp vp =
          ⟨-(t.x / vp.width * 2 - 1) * vp.width * ps,
           -(t.y / vp.height * 2 - 1) * vp.height * ps,
           -(t.y / vp.height * 2 - 1) * rs,
           (t.x / vp.width * 2 - 1) * rs⟩) ∧
    (∀ (ps rs : ℚ) (mp : Vec2) (vp : Viewport),
        ScreenSpace3D ps rs true none mp vp =
          ⟨-(mp.x / vp.width * 2 - 1) * vp.width * ps,
           -(mp.y / vp.height * 2 - 1) * vp.height * ps,
           -(mp.y / vp.height * 2 - 1) * rs,
           (mp.x / vp.width * 2 - 1) * rs⟩) ∧
    (∀ (ps rs : ℚ) (t : Option Vec2) (mp : Vec2) (vp : Viewport),
        ScreenSpace3D ps rs false t mp vp = ⟨0, 0, 0, 0⟩) ∧
    (∀ (ps rs : ℚ) (mp : Vec2) (vp : Viewport), vp.width ≠ 0 → vp.height ≠ 0 →
        ScreenSpace3D ps rs true (some ⟨vp.width / 2, vp.height / 2⟩) mp vp
          = ⟨0, 0, 0, 0⟩) ∧
    (∀ (ps rs : ℚ) (mp : Vec2) (vp : Viewport),
        0 < ps → 0 < rs → 0 < vp.width → 0 < vp.height →
        (ScreenSpace3D ps rs true (some ⟨vp.width, vp.height / 2⟩) mp vp).offsetX < 0 ∧
        0 < (ScreenSpace3D ps rs true (some ⟨vp.width, vp.height / 2⟩) mp vp).rotateY) := by
  refine ⟨fun ps rs t mp vp => rfl, fun ps rs mp vp => rfl, fun ps rs t mp vp => rfl,
    fun ps rs mp vp hw hh => ?_, fun ps rs mp vp hps hrs hw hh => ?_⟩
  · rw [screenSpace3D_follow_target]
    ext <;> (field_simp; try ring)
  · have hnx : vp.width / vp.width * 2 - 1 = 1 := by
      rw [div_self hw.ne']; norm_num
    rw [screenSpace3D_follow_target]
    constructor
    · show -(vp.width / vp.width * 2 - 1) * vp.width * ps < 0
      rw [hnx]
      nlinarith [mul_pos hw hps]
    · show 0 < (vp.width / vp.width * 2 - 1) * rs
      rw [hnx]
      nlinarith

/-- Witness for claim C9 at the 1920×1080 reference viewport with positive
strengths. -/
theorem parallax_transform_witness :
    (ScreenSpace3D (1/20) 2 true (some ⟨1920, (1080 : ℚ) / 2⟩) ⟨0, 0⟩
        ⟨1920, 1080⟩).offsetX < 0 ∧
    0 < (ScreenSpace3D (1/20) 2 true (some ⟨1920, (1080 : ℚ) / 2⟩) ⟨0, 0⟩
        ⟨1920, 1080⟩).rotateY :=
  parallax_transform.2.2.2.2 (1/20) 2 ⟨0, 0⟩ ⟨1920, 1080⟩ (by norm_num)
    (by norm_num) (by norm_num) (by norm_num)

/-- Claim C10: with the oscillators bounded by one in absolute value and a
non-negative wobble amplitude, each coordinate of the returned mouse
position differs from the pre-jitter interpolated position by at most the
amplitude. -/
theorem jitter_bound (s c : ℚ → ℚ) (frame : ℚ) (config : MouseControllerConfig)
    (hs : ∀ u, |s u| ≤ 1) (hc : ∀ u, |c u| ≤ 1)
    (hamp : 0 ≤ (config.wobble.getD defaultWobble).amplitude)
    (hne : config.waypoints ≠ []) :
    |(useMouseController s c frame config).x - (preJitterPos frame config).x|
        ≤ (config.wobble.getD defaultWobble).amplitude ∧
    |(useMouseController s c frame config).y - (preJitterPos frame config).y|
        ≤ (config.wobble.getD defaultWobble).amplitude := by
  rcases config with ⟨wps, wob, dur⟩
  cases wps with
  | nil => exact absurd rfl hne
  | cons w rest =>
      rw [useMouseController_cons]
      constructor
      · show |(preJitterPos frame ⟨w :: rest, wob, dur⟩).x
            + wobbleX s frame (wob.getD defaultWobble)
            - (preJitterPos frame ⟨w :: rest, wob, dur⟩).x| ≤ _
        rw [add_sub_cancel_left, wobbleX, abs_mul, abs_of_nonneg hamp]
        exact le_trans (mul_le_mul_of_nonneg_right (hs _) hamp) (by rw [one_mul])
      · show |(preJitterPos frame ⟨w :: rest, wob, dur⟩).y
            + wobbleY c frame (wob.getD defaultWobble)
            - (preJitterPos frame ⟨w :: rest, wob, dur⟩).y| ≤ _
        rw [add_sub_cancel_left, wobbleY, abs_mul, abs_of_nonneg hamp]
        exact le_trans (mul_le_mul_of_nonneg_right (hc _) hamp) (by rw [one_mul])

/-- Witness for claim C10 at a one-waypoint configuration with constant-zero
oscillators. -/
theorem jitter_bound_witness :
    |(useMouseController (fun _ => 0) (fun _ => 0) 3 oneWpConfig).x
        - (preJitterPos 3 oneWpConfig).x|
      ≤ (oneWpConfig.wobble.getD defaultWobble).amplitude :=
  (jitter_bound (fun _ => 0) (fun _ => 0) 3 oneWpConfig
      (fun u => by norm_num) (fun u => by norm_num)
      (by norm_num [oneWpConfig, defaultWobble]) (by simp [oneWpConfig])).1
